import Mathlib

/-!
Shallow embedding of the two core components of this repository:

* `Paper.Group` — the composite group node (`src/src/text/AreaText.js`,
  `Group` declaration): clip-item derivation (`_getClipItems`), the
  `isClipped`/`setClipped` accessors, and the `_draw` pass with its
  clip-mask compositing swap and the deferral of non-clippable children.

* `Paper.AreaText` — the bounded text region (`src/src/text/AreaText.js`
  `AreaText` declaration and `src/unnamed/part_000`): the greedy word
  wrap (`testLine`), the emission routine (`writeLine`), the full `_draw`
  pipeline, and the style setters `setColorStyle` / `setFontStyle`.

The raster surface (a canvas 2d context) is modelled by the record
`Paper.Ctx` holding exactly the state the core touches: the active
compositing operator (`globalCompositeOperation`), the font, the text
alignment, the current translation, and a trace of paint events in the
order they are issued.  Children of a group are external drawables; a
child's `draw` is modelled as appending one `drawChild` event that
records the compositing operator active at the moment it is drawn.

JavaScript numbers are modelled as `Int` where only comparisons and
additions occur (widths, heights, leading) and as `ℚ` where the source
multiplies by 1.2 (`setFontStyle`).  JavaScript string split/join are
re-implemented over `List Char` so that every definition reduces inside
the kernel.
-/

namespace Paper

/-- JavaScript `Array.prototype.join(sep)` / `String.prototype.split(sep)`
helper: split a character list on a separator character.  Matches JS
semantics: the empty string splits to `[""]`, and consecutive separators
produce empty fragments. -/
def splitCharsOn (sep : Char) : List Char → List (List Char)
  | [] => [[]]
  | c :: cs =>
    match splitCharsOn sep cs with
    | [] => [[]]
    | w :: ws => if c = sep then [] :: w :: ws else (c :: w) :: ws

/-- JS `s.split(sep)` for a single-character separator. -/
def jsSplit (s : String) (sep : Char) : List String :=
  (splitCharsOn sep s.data).map String.mk

/-- The characters of a string, each as a one-character string: JS string
indexing `word[n]` as used when `testLine` recurses into a single word. -/
def strChars (s : String) : List String :=
  s.data.map String.singleton

/-- One paint event issued to the raster surface, in issue order. -/
inductive CtxEvent where
  /-- An external child node was drawn; records the child id and the
  compositing operator active on the surface at that moment. -/
  | drawChild (id : Nat) (op : String)
  /-- `ctx.fillText(s, 0, 0)` under translation `(x, y)`. -/
  | fillText (s : String) (x y : Int)
  /-- `ctx.strokeText(s, 0, 0)` under translation `(x, y)`. -/
  | strokeText (s : String) (x y : Int)
deriving DecidableEq

/-- The raster surface (canvas 2d context) state the core reads or
writes: compositing operator, font, text alignment, the accumulated
translation of the coordinate transform, and the event trace. -/
structure Ctx where
  gco : String
  font : String
  textAlign : String
  transX : Int
  transY : Int
  events : List CtxEvent
deriving DecidableEq

/-- A direct child of a group, as the group's `_draw` inspects it: an
identity for the event trace plus the two flags `_clipMask`
(`item.isClipMask()`) and clippability (`item.isClippable()`). -/
structure Child where
  id : Nat
  clipMask : Bool
  clippable : Bool
deriving DecidableEq

/-- The composite group node: ordered children, the `compositing`
operator (source default: the string `source-in`), and its
stroke-inclusive bounding box dimensions (`getStrokeBounds()`), which the
source only consults for the zero test. -/
structure Group where
  children : List Child
  compositing : String
  boundsW : Int
  boundsH : Int
deriving DecidableEq

/-- `Group._getClipItems`: all children whose clip-mask flag is set,
recomputed from the current child list on every call. -/
def getClipItems (g : Group) : List Child :=
  g.children.filter fun c => c.clipMask

/-- `Group.isClipped`: `this._getClipItems().length > 0`. -/
def isClipped (g : Group) : Bool :=
  decide (0 < (getClipItems g).length)

/-- `Child.setClipMask` (external `Item` setter) restricted to the flag
the group logic reads. -/
def setClipMask (c : Child) (b : Bool) : Child :=
  { c with clipMask := b }

/-- `Group.setClipped`: set the clip-mask flag of the first child when
one exists; otherwise do nothing. -/
def setClipped (g : Group) (clipped : Bool) : Group :=
  match g.children with
  | [] => g
  | c :: cs => { g with children := setClipMask c clipped :: cs }

/-- The main child loop of `Group._draw`: walk the children in order; a
clip-mask child is drawn with the surface operator temporarily swapped to
`comp` (saved and restored around the draw); a non-clippable child is
deferred (collected, in order, into the returned list) when `hasClip`;
every other child is drawn immediately under the current operator. -/
def groupLoop (comp : String) (hasClip : Bool) : Ctx → List Child → Ctx × List Child
  | ctx, [] => (ctx, [])
  | ctx, c :: cs =>
    if c.clipMask then
      let orig := ctx.gco
      let ctx1 : Ctx := { ctx with gco := comp }
      let ctx2 : Ctx := { ctx1 with events := ctx1.events ++ [.drawChild c.id ctx1.gco] }
      let ctx3 : Ctx := { ctx2 with gco := orig }
      groupLoop comp hasClip ctx3 cs
    else if hasClip && !c.clippable then
      let r := groupLoop comp hasClip ctx cs
      (r.1, c :: r.2)
    else
      groupLoop comp hasClip
        { ctx with events := ctx.events ++ [.drawChild c.id ctx.gco] } cs

/-- `Group._draw`: recompute the clip items; when a clip mask exists and
the stroke bounds are degenerate, abort; otherwise run the main loop and
then draw every deferred child in deferral order under the current
(unswapped) operator. -/
def drawGroup (g : Group) (ctx : Ctx) : Ctx :=
  let hasClip := decide (0 < (getClipItems g).length)
  if hasClip && (g.boundsW == 0 || g.boundsH == 0) then ctx
  else
    let r := groupLoop g.compositing hasClip ctx g.children
    r.2.foldl
      (fun c item => { c with events := c.events ++ [.drawChild item.id c.gco] }) r.1

/-- The events of the main (non-deferred) pass: children kept by the
loop, in list order, each recorded with the operator it is drawn under. -/
def mainEvs (comp gco : String) (hasClip : Bool) (cs : List Child) : List CtxEvent :=
  (cs.filter fun c => c.clipMask || !(hasClip && !c.clippable)).map
    fun c => .drawChild c.id (if c.clipMask then comp else gco)

/-- The children the loop defers, in list order. -/
def deferList (hasClip : Bool) (cs : List Child) : List Child :=
  cs.filter fun c => !c.clipMask && (hasClip && !c.clippable)


/-- The data `AreaText._draw` reads: whether `this.text` is set, its raw
content string (`_content`; the empty string is falsy), its pre-split
logical lines (`_lines`), the style fields resolved from the owning
style object, the bounding box of the path, and the parsed numeric font
size used for the baseline correction. -/
structure AreaTextModel where
  hasText : Bool
  content : String
  lines : List String
  leading : Int
  fillColor : Option String
  strokeColor : Option String
  fontStyle : String
  justification : String
  topLeftX : Int
  topLeftY : Int
  boundsW : Int
  boundsH : Int
  fontSize : Int
deriving DecidableEq

/-- The `testLine` closure of `AreaText._draw`, with the text-measurement
primitive `ctx.measureText` abstracted as `measure` and an explicit fuel
(the source function can diverge when a single character is wider than
the box, so the embedding is fueled; `none` means fuel ran out).  The
result is the ordered list of lines handed to `writeLine` during the
call, paired with the residual candidate line the source returns.
Mirrors the source loop: push the next word, measure the candidate
joined with the separator; on overflow pop the word; then either emit the
non-empty candidate and reprocess the word with a fresh candidate
(`n--` in the source), or — when the candidate was empty — recurse over
the word's characters with the empty separator and emit the residual of
that recursion. -/
def testLineAux (measure : String → Int) (maxWidth : Int) :
    Nat → String → List String → List String → Option (List String × List String)
  | 0, _, _, _ => none
  | _ + 1, _, line, [] => some ([], line)
  | fuel + 1, separator, line, w :: ws =>
    let cand := line ++ [w]
    if measure (String.intercalate separator cand) > maxWidth then
      if line.isEmpty then
        match testLineAux measure maxWidth fuel "" [] (strChars w) with
        | none => none
        | some (em, res) =>
          match testLineAux measure maxWidth fuel separator [] ws with
          | none => none
          | some (em2, res2) =>
            some (em ++ String.intercalate "" res :: em2, res2)
      else
        match testLineAux measure maxWidth fuel separator [] (w :: ws) with
        | none => none
        | some (em, res) => some (String.intercalate separator line :: em, res)
    else
      testLineAux measure maxWidth fuel separator cand ws

/-- One logical line of the outer loop of `AreaText._draw`: split on
single spaces, wrap via `testLine`, and emit the residual candidate when
it is non-empty.  Returns the output lines passed to `writeLine` for
this logical line, in order. -/
def layoutLine (measure : String → Int) (maxWidth : Int) (fuel : Nat)
    (logical : String) : Option (List String) :=
  match testLineAux measure maxWidth fuel " " [] (jsSplit logical ' ') with
  | none => none
  | some (em, res) =>
    some (if 0 < res.length then em ++ [String.intercalate " " res] else em)

/-- All output lines of a draw call, across the logical lines in order. -/
def layoutAll (measure : String → Int) (maxWidth : Int) (fuel : Nat) :
    List String → Option (List String)
  | [] => some []
  | l :: ls =>
    match layoutLine measure maxWidth fuel l, layoutAll measure maxWidth fuel ls with
    | some a, some b => some (a ++ b)
    | _, _ => none

/-- The `writeLine` closure of `AreaText._draw`, acting on the surface
and the captured `currentHeight` cursor: when the cursor plus `leading`
exceeds the box height, do nothing; otherwise paint a filled and/or
stroked glyph run at the current origin (depending on which colors are
set), translate down by `leading`, and advance the cursor by `leading`. -/
def writeLine (t : AreaTextModel) (st : Ctx × Int) (line : String) : Ctx × Int :=
  if st.2 + t.leading > t.boundsH then st
  else
    let c1 :=
      match t.fillColor with
      | some _ =>
        { st.1 with events := st.1.events ++ [CtxEvent.fillText line st.1.transX st.1.transY] }
      | none => st.1
    let c2 :=
      match t.strokeColor with
      | some _ =>
        { c1 with events := c1.events ++ [CtxEvent.strokeText line c1.transX c1.transY] }
      | none => c1
    ({ c2 with transY := c2.transY + t.leading }, st.2 + t.leading)

/-- `AreaText._draw`: early-out on a missing/empty text payload or a
degenerate box; otherwise set the surface font and alignment, translate
to the box origin with the baseline correction, wrap every logical line
and feed the resulting output lines through `writeLine` in order. -/
def drawAreaText (measure : String → Int) (fuel : Nat) (t : AreaTextModel)
    (ctx : Ctx) : Option Ctx :=
  if !t.hasText || t.content == "" then some ctx
  else if t.boundsW == 0 || t.boundsH == 0 then some ctx
  else
    let ctx1 : Ctx :=
      { ctx with
        font := t.fontStyle
        textAlign := t.justification
        transX := ctx.transX + t.topLeftX + 1
        transY := ctx.transY + t.topLeftY + t.fontSize - 1 }
    match layoutAll measure t.boundsW fuel t.lines with
    | none => none
    | some outs => some (outs.foldl (writeLine t) (ctx1, 0)).1

/-- The canonical and cached color slots `setColorStyle` writes. -/
structure AreaTextColor where
  fillColor : Option String
  strokeColor : Option String
  cssFillColor : Option String
  cssStrokeColor : Option String
deriving DecidableEq

/-- `AreaText.setColorStyle(color, strokeColor)` with explicit arguments,
exactly as the source assigns the four slots (note the source writes the
`color` argument into `cssStrokeColor`). -/
def setColorStyle (color strokeColor : Option String) : AreaTextColor :=
  { fillColor := color
    strokeColor := strokeColor
    cssFillColor := color
    cssStrokeColor := color }

/-- The font-related slots `setFontStyle` writes: the stored font size
string (the numeric size concatenated with the pixel unit), the leading,
and the font family. -/
structure AreaTextFont where
  fontSize : String
  leading : ℚ
  font : String
deriving DecidableEq

/-- `AreaText.setFontStyle(fontSize, leading, fontFamily)` with explicit
arguments.  `leading = leading || fontSize * 1.2` treats an absent or
falsy (zero) leading alike; the font family is only assigned when truthy
(present and non-empty). -/
def setFontStyle (st : AreaTextFont) (fontSize : ℚ) (leading : Option ℚ)
    (fontFamily : Option String) : AreaTextFont :=
  let l : ℚ :=
    match leading with
    | some q => if q = 0 then fontSize * (12 / 10) else q
    | none => fontSize * (12 / 10)
  { fontSize := toString fontSize ++ "px"
    leading := l
    font :=
      match fontFamily with
      | some f => if f = "" then st.font else f
      | none => st.font }

/-- A baseline raster surface for the concrete checks. -/
def ctx0 : Ctx :=
  { gco := "source-over"
    font := "sans-serif"
    textAlign := "start"
    transX := 0
    transY := 0
    events := [] }

/-- A measure for the word-wrap example: every candidate is 5 units wide
except the two-word candidate that must overflow. -/
def exMeasureWrap (s : String) : Int :=
  if s = "aaa bbb" then 10 else 5

/-- A measure that renders every character one unit wide. -/
def strLenMeasure (s : String) : Int :=
  s.length

/-- A child flagged as clip mask. -/
def childClip : Child :=
  { id := 0, clipMask := true, clippable := true }

/-- A child marked non-clippable. -/
def childUnclippable : Child :=
  { id := 1, clipMask := false, clippable := false }

/-- An ordinary child. -/
def childPlain : Child :=
  { id := 2, clipMask := false, clippable := true }

/-- A group mixing a clip mask, a non-clippable child and an ordinary
child, with non-degenerate bounds. -/
def exGroupMixed : Group :=
  { children := [childClip, childUnclippable, childPlain]
    compositing := "source-in", boundsW := 5, boundsH := 5 }

/-- A group with zero-width stroke bounds, a non-empty child list and no
clip-mask child. -/
def exGroupZeroNoClip : Group :=
  { children := [childPlain], compositing := "source-in", boundsW := 0, boundsH := 5 }

/-- A group with zero-width stroke bounds and a clip-mask child. -/
def exGroupZeroClip : Group :=
  { children := [childClip, childPlain], compositing := "source-in"
    boundsW := 0, boundsH := 5 }

/-- A group with two non-mask children. -/
def exGroupTwoPlain : Group :=
  { children := [childUnclippable, childPlain], compositing := "source-in"
    boundsW := 5, boundsH := 5 }

/-- A text region whose box is shorter than one leading, so the very
first output line already overflows. -/
def exTextShort : AreaTextModel :=
  { hasText := true, content := "hi", lines := ["hi"], leading := 5
    fillColor := some "black", strokeColor := none
    fontStyle := "10px sans-serif", justification := "start"
    topLeftX := 0, topLeftY := 0, boundsW := 10, boundsH := 3, fontSize := 5 }

/-- A text region tall enough to paint its single line. -/
def exTextDraw : AreaTextModel :=
  { hasText := true, content := "hi", lines := ["hi"], leading := 5
    fillColor := some "black", strokeColor := none
    fontStyle := "10px sans-serif", justification := "start"
    topLeftX := 0, topLeftY := 0, boundsW := 10, boundsH := 10, fontSize := 5 }

theorem groupLoop_eq (comp : String) (hc : Bool) (cs : List Child) :
    ∀ ctx : Ctx,
      groupLoop comp hc ctx cs
        = ({ ctx with events := ctx.events ++ mainEvs comp ctx.gco hc cs },
           deferList hc cs) := by
  induction cs with
  | nil => intro ctx; simp [groupLoop, mainEvs, deferList]
  | cons c cs ih =>
    intro ctx
    obtain ⟨cid, cm, cp⟩ := c
    cases cm <;> cases hc <;> cases cp <;>
      simp [groupLoop, ih, mainEvs, deferList, List.filter_cons]

theorem deferred_foldl_eq (defs : List Child) :
    ∀ ctx : Ctx,
      defs.foldl
          (fun c item => { c with events := c.events ++ [CtxEvent.drawChild item.id c.gco] })
          ctx
        = { ctx with events := ctx.events ++ defs.map (fun item => .drawChild item.id ctx.gco) } := by
  induction defs with
  | nil => intro ctx; simp
  | cons d ds ih =>
    intro ctx
    simp only [List.foldl_cons, List.map_cons]
    rw [ih]
    simp

/-- Full characterization of `drawGroup`: either the degenerate-bounds
abort fires, or the trace grows by the main-pass events followed by the
deferred events, and no other surface state changes. -/
theorem drawGroup_eq (g : Group) (ctx : Ctx) :
    drawGroup g ctx
      = if decide (0 < (getClipItems g).length) && (g.boundsW == 0 || g.boundsH == 0)
        then ctx
        else { ctx with events := (ctx.events
                ++ mainEvs g.compositing ctx.gco (decide (0 < (getClipItems g).length)) g.children
                ++ (deferList (decide (0 < (getClipItems g).length)) g.children).map
                    (fun c => CtxEvent.drawChild c.id ctx.gco)) } := by
  by_cases h : decide (0 < (getClipItems g).length) && (g.boundsW == 0 || g.boundsH == 0)
  · simp [drawGroup, h]
  · simp only [drawGroup, h, Bool.false_eq_true, if_false]
    rw [groupLoop_eq]
    rw [deferred_foldl_eq]

/-- Claim C1: in a `drawGroup` pass with at least one clip-mask child
and non-degenerate bounds, the event trace is exactly the non-deferred
children (clip masks under the group operator, ordinary children under
the caller's operator) in child-list order, followed by all non-clippable
children, in their original relative order, under their own (the
caller's) operator — so every non-clippable child is drawn strictly
after every clip-mask and every ordinary child. -/
theorem drawGroup_defers_unclippable_last (g : Group) (ctx : Ctx)
    (hclip : 0 < (getClipItems g).length)
    (hW : ¬g.boundsW = 0) (hH : ¬g.boundsH = 0) :
    drawGroup g ctx
      = { ctx with events := (ctx.events
          ++ (g.children.filter (fun c => c.clipMask || c.clippable)).map
              (fun c => CtxEvent.drawChild c.id
                (if c.clipMask then g.compositing else ctx.gco))
          ++ (g.children.filter (fun c => !c.clipMask && !c.clippable)).map
              (fun c => CtxEvent.drawChild c.id ctx.gco)) } := by
  have h1 : decide (0 < (getClipItems g).length) = true := decide_eq_true hclip
  have hW2 : (g.boundsW == 0) = false := by simpa using hW
  have hH2 : (g.boundsH == 0) = false := by simpa using hH
  rw [drawGroup_eq, h1, hW2, hH2]
  simp [mainEvs, deferList]

/-- Witness for C1 at a concrete mixed group. -/
theorem drawGroup_defers_unclippable_last_witness :
    drawGroup exGroupMixed ctx0
      = { ctx0 with events :=
          [CtxEvent.drawChild 0 "source-in", CtxEvent.drawChild 2 "source-over",
           CtxEvent.drawChild 1 "source-over"] } := by
  rw [drawGroup_defers_unclippable_last exGroupMixed ctx0 (by decide) (by decide) (by decide)]
  decide

/-- Claim C2: vertical overflow is sticky — as soon as the running
height cursor plus `leading` exceeds the box height, feeding any further
output lines through `writeLine` changes nothing: no line is painted and
the cursor (and the whole surface state) stays exactly as it was. -/
theorem writeLine_overflow_sticky (t : AreaTextModel) (st : Ctx × Int)
    (outLines : List String) (h : st.2 + t.leading > t.boundsH) :
    outLines.foldl (writeLine t) st = st := by
  induction outLines with
  | nil => rfl
  | cons l ls ih =>
    have hstep : writeLine t st l = st := by
      unfold writeLine
      rw [if_pos h]
    rw [List.foldl_cons, hstep]
    exact ih

/-- Witness for C2: a box shorter than one leading drops every line. -/
theorem writeLine_overflow_sticky_witness :
    ["hi", "yo"].foldl (writeLine exTextShort) (ctx0, 0) = (ctx0, 0) :=
  writeLine_overflow_sticky exTextShort (ctx0, 0) ["hi", "yo"] (by decide)

/-- Claim C3 (code bug): `setColorStyle` keeps the fill mirror in sync
but writes the `color` argument into `cssStrokeColor`, so with distinct
fill and stroke arguments the canonical stroke color and its cached
mirror diverge. -/
theorem setColorStyle_stroke_mirror_diverges :
    (setColorStyle (some "red") (some "blue")).fillColor
        = (setColorStyle (some "red") (some "blue")).cssFillColor
  ∧ (setColorStyle (some "red") (some "blue")).strokeColor = some "blue"
  ∧ (setColorStyle (some "red") (some "blue")).cssStrokeColor = some "red"
  ∧ ¬(setColorStyle (some "red") (some "blue")).strokeColor
        = (setColorStyle (some "red") (some "blue")).cssStrokeColor := by
  decide

/-- Claim C4: when the candidate line plus the next word overflows and
the candidate is non-empty, `testLine` emits the joined candidate and
restarts with an empty candidate at the very same word (the word is
reprocessed, not dropped); and on the spec's example the output is
exactly the two lines the claim names. -/
theorem testLine_reprocess_popped_word
    (measure : String → Int) (maxWidth : Int) (separator : String)
    (line : List String) (w : String) (ws : List String) (fuel : Nat)
    (em res : List String)
    (hover : measure (String.intercalate separator (line ++ [w])) > maxWidth)
    (hne : ¬line = [])
    (hrest : testLineAux measure maxWidth fuel separator [] (w :: ws) = some (em, res)) :
    testLineAux measure maxWidth (fuel + 1) separator line (w :: ws)
      = some (String.intercalate separator line :: em, res)
  ∧ layoutLine exMeasureWrap 6 20 "aaa bbb ccc" = some ["aaa", "bbb ccc"] := by
  constructor
  · obtain ⟨a, as, rfl⟩ : ∃ a as, line = a :: as := by
      cases line with
      | nil => exact absurd rfl hne
      | cons a as => exact ⟨a, as, rfl⟩
    simp only [testLineAux]
    rw [if_pos hover]
    simp only [List.isEmpty_cons, Bool.false_eq_true, if_false]
    rw [hrest]
  · decide

/-- Witness for C4 at the spec's example measure. -/
theorem testLine_reprocess_popped_word_witness :
    testLineAux exMeasureWrap 6 4 " " ["aaa"] ["bbb", "ccc"]
      = some (["aaa"], ["bbb", "ccc"]) :=
  (testLine_reprocess_popped_word exMeasureWrap 6 " " ["aaa"] "bbb" ["ccc"] 3 [] ["bbb", "ccc"]
      (by decide) (by decide) (by decide)).1

/-- Claim C5: a word that alone overflows an empty candidate is broken
by recursing over its characters with the empty separator; the
character-level emissions come first, then the joined character residual,
then the wrap continues with the remaining words — and on the spec's
example the ten-character word yields exactly the three fragments. -/
theorem testLine_char_fallback
    (measure : String → Int) (maxWidth : Int) (separator : String)
    (w : String) (ws : List String) (fuel : Nat)
    (em res em2 res2 : List String)
    (hover : measure (String.intercalate separator [w]) > maxWidth)
    (hchars : testLineAux measure maxWidth fuel "" [] (strChars w) = some (em, res))
    (hrest : testLineAux measure maxWidth fuel separator [] ws = some (em2, res2)) :
    testLineAux measure maxWidth (fuel + 1) separator [] (w :: ws)
      = some (em ++ String.intercalate "" res :: em2, res2)
  ∧ layoutLine strLenMeasure 4 30 "XXXXXXXXXX" = some ["XXXX", "XXXX", "XX"] := by
  constructor
  · simp only [testLineAux, List.nil_append]
    rw [if_pos hover]
    simp only [List.isEmpty_nil, if_true]
    rw [hchars, hrest]
  · decide

/-- Witness for C5 at the character-width measure. -/
theorem testLine_char_fallback_witness :
    testLineAux strLenMeasure 4 26 "" [] ["XXXXXXXXXX"]
      = some (["XXXX", "XXXX", "XX"], []) :=
  (testLine_char_fallback strLenMeasure 4 "" "XXXXXXXXXX" [] 25
      ["XXXX", "XXXX"] ["X", "X"] [] []
      (by decide) (by decide) (by decide)).1

/-- Claim C6, amended: the group draw restores every piece of surface
state it mutates — the compositing operator swap around a clip-mask
child is scoped, and the font, alignment and transform are untouched —
but the text draw does not (see the counterexample). -/
theorem drawGroup_preserves_surface_state (g : Group) (ctx : Ctx) :
    (drawGroup g ctx).gco = ctx.gco
  ∧ (drawGroup g ctx).font = ctx.font
  ∧ (drawGroup g ctx).textAlign = ctx.textAlign
  ∧ (drawGroup g ctx).transX = ctx.transX
  ∧ (drawGroup g ctx).transY = ctx.transY := by
  rw [drawGroup_eq]
  by_cases h : (decide (0 < (getClipItems g).length)
      && (g.boundsW == 0 || g.boundsH == 0)) = true
  · rw [if_pos h]
    exact ⟨rfl, rfl, rfl, rfl, rfl⟩
  · rw [if_neg h]
    exact ⟨rfl, rfl, rfl, rfl, rfl⟩

/-- Counterexample to C6 as stated: a text-region draw leaves the
coordinate transform translated (and the font changed) after returning. -/
theorem areaText_draw_leaves_transform_translated :
    (drawAreaText strLenMeasure 10 exTextDraw ctx0).map Ctx.transX = some 1
  ∧ (drawAreaText strLenMeasure 10 exTextDraw ctx0).map Ctx.font
      = some "10px sans-serif"
  ∧ ctx0.transX = 0 ∧ ¬ctx0.font = "10px sans-serif" := by
  decide

/-- Claim C7: `isClipped` holds exactly when some direct child carries
the clip-mask flag, and — because it is recomputed from the current
child list on every query — setting any child's flag to true via
`setClipMask` makes a re-query return true. -/
theorem isClipped_iff_clip_mask_child (g : Group) :
    (isClipped g = true ↔ ∃ c ∈ g.children, c.clipMask = true)
  ∧ ∀ (pre post : List Child) (c : Child),
      isClipped { g with children := pre ++ setClipMask c true :: post } = true := by
  constructor
  · constructor
    · intro h
      obtain ⟨c, hc⟩ := List.exists_mem_of_length_pos (of_decide_eq_true h)
      rw [getClipItems, List.mem_filter] at hc
      exact ⟨c, hc.1, hc.2⟩
    · rintro ⟨c, hc, hm⟩
      exact decide_eq_true
        (List.length_pos_of_mem (List.mem_filter.mpr ⟨hc, hm⟩))
  · intro pre post c
    have hmem : setClipMask c true
        ∈ ({ g with children := pre ++ setClipMask c true :: post } : Group).children :=
      List.mem_append.mpr (Or.inr (List.mem_cons_self _ _))
    exact decide_eq_true (List.length_pos_of_mem (List.mem_filter.mpr ⟨hmem, rfl⟩))

/-- Witness for C7: flagging a child of a previously unclipped group
makes it clipped. -/
theorem isClipped_iff_clip_mask_child_witness :
    isClipped { exGroupTwoPlain with
        children := [] ++ setClipMask childPlain true :: [childUnclippable] } = true :=
  (isClipped_iff_clip_mask_child exGroupTwoPlain).2 [] [childUnclippable] childPlain

/-- Claim C8, amended: the degenerate-bounds abort only applies when a
clip-mask child exists — then a zero-width or zero-height stroke box
makes the draw a no-op (nothing painted, no error). -/
theorem drawGroup_zero_bounds_aborts_with_clip (g : Group) (ctx : Ctx)
    (hclip : 0 < (getClipItems g).length)
    (hzero : g.boundsW = 0 ∨ g.boundsH = 0) :
    drawGroup g ctx = ctx := by
  rw [drawGroup_eq]
  have h1 : decide (0 < (getClipItems g).length) = true := decide_eq_true hclip
  have h2 : (g.boundsW == 0 || g.boundsH == 0) = true := by
    rcases hzero with h | h <;> simp [h]
  rw [h1, h2]
  simp

/-- Witness for C8's amended statement. -/
theorem drawGroup_zero_bounds_aborts_with_clip_witness :
    drawGroup exGroupZeroClip ctx0 = ctx0 :=
  drawGroup_zero_bounds_aborts_with_clip exGroupZeroClip ctx0 (by decide) (Or.inl rfl)

/-- Counterexample to C8 as stated: with zero-width stroke bounds but no
clip-mask child, the bounds are never consulted and the (non-empty)
children are painted. -/
theorem drawGroup_zero_bounds_draws_without_clip :
    (drawGroup exGroupZeroNoClip ctx0).events = [CtxEvent.drawChild 2 "source-over"]
  ∧ exGroupZeroNoClip.boundsW = 0
  ∧ ¬exGroupZeroNoClip.children = [] := by
  decide

/-- Claim C9, amended: with explicit arguments, an absent or falsy
(zero) leading is replaced by `fontSize * 1.2`, a non-zero leading is
stored verbatim, an absent or empty font family leaves the current
family unchanged while a non-empty family replaces it, and the font size
is stored with a pixel unit. -/
theorem setFontStyle_defaults_and_family (st : AreaTextFont) (fs q : ℚ)
    (ff : Option String) :
    (setFontStyle st fs none ff).leading = fs * (12 / 10)
  ∧ (setFontStyle st fs (some 0) ff).leading = fs * (12 / 10)
  ∧ (¬q = 0 → (setFontStyle st fs (some q) ff).leading = q)
  ∧ (setFontStyle st fs (some q) none).font = st.font
  ∧ (setFontStyle st fs (some q) (some "")).font = st.font
  ∧ (∀ f : String, ¬f = "" → (setFontStyle st fs (some q) (some f)).font = f)
  ∧ (setFontStyle st fs (some q) ff).fontSize = toString fs ++ "px" := by
  refine ⟨rfl, ?_, ?_, rfl, ?_, ?_, rfl⟩
  · simp [setFontStyle]
  · intro h
    simp [setFontStyle, h]
  · simp [setFontStyle]
  · intro f h
    simp [setFontStyle, h]

/-- Witness for C9's amended statement: non-zero leading and non-empty
family are stored verbatim. -/
theorem setFontStyle_defaults_and_family_witness :
    (setFontStyle { fontSize := "0px", leading := 0, font := "serif" } 10
        (some 5) (some "monospace")).font = "monospace" :=
  ((setFontStyle_defaults_and_family
      { fontSize := "0px", leading := 0, font := "serif" } 10 5 none).2.2.2.2.2.1
    "monospace" (by decide))

/-- Counterexample to C9 as stated: a supplied leading of 0 is not
stored verbatim — the `leading || fontSize * 1.2` default kicks in. -/
theorem setFontStyle_zero_leading_not_verbatim :
    (setFontStyle { fontSize := "0px", leading := 0, font := "serif" } 10
        (some 0) none).leading = 12
  ∧ ¬(12 : ℚ) = 0 := by
  constructor
  · show (if (0 : ℚ) = 0 then (10 : ℚ) * (12 / 10) else 0) = 12
    rw [if_pos rfl]
    norm_num
  · norm_num

/-- Claim C10: `setClipped` only rewrites the first child's clip-mask
flag, every other child and every other group field is untouched, and on
an empty child list it is a silent no-op. -/
theorem setClipped_first_child_only (g : Group) (b : Bool) :
    (g.children = [] → setClipped g b = g)
  ∧ ∀ (c : Child) (cs : List Child), g.children = c :: cs →
      (setClipped g b).children = { c with clipMask := b } :: cs
      ∧ (setClipped g b).compositing = g.compositing
      ∧ (setClipped g b).boundsW = g.boundsW
      ∧ (setClipped g b).boundsH = g.boundsH := by
  constructor
  · intro h
    simp [setClipped, h]
  · intro c cs h
    simp [setClipped, setClipMask, h]

/-- Witness for C10 at a two-child group. -/
theorem setClipped_first_child_only_witness :
    (setClipped exGroupTwoPlain true).children
      = [{ childUnclippable with clipMask := true }, childPlain] :=
  ((setClipped_first_child_only exGroupTwoPlain true).2 childUnclippable [childPlain] rfl).1

end Paper
